import Mathlib

/-!
Shallow embedding of the barbershop booking bot (src/barberbot.py): the
SQLite-backed store of users and appointments, the booking conversation
handlers, and the notification fan-out, together with theorems settling the
specification claims about them.
-/

namespace BarberBot

/-- Byte-wise lexicographic comparison of character lists. This models the
BINARY collation SQLite uses to compare TEXT values (memcmp on the encoded
bytes); for the ASCII date and time strings the bot stores this coincides
with code-point order. -/
def charListLt : List Char → List Char → Bool
  | _, [] => false
  | [], _ :: _ => true
  | a :: as, b :: bs =>
    if a.toNat < b.toNat then true
    else if b.toNat < a.toNat then false
    else charListLt as bs

/-- SQLite TEXT comparison a < b. -/
def strLt (a b : String) : Bool := charListLt a.data b.data

/-- SQLite TEXT comparison a <= b. -/
def strLe (a b : String) : Bool := !(strLt b a)

/-- Row of the users table (setup_database, barberbot.py lines 77-85). -/
structure UserRow where
  user_id : Nat
  username : Option String
  first_name : String
  last_name : Option String
  phone_number : Option String
  registration_date : String
deriving DecidableEq

/-- Row of the appointments table (setup_database, barberbot.py lines 88-99).
The status column holds the literal TEXT values used by the code. -/
structure ApptRow where
  id : Nat
  user_id : Nat
  service : String
  price : Nat
  date : String
  time : String
  status : String
  created_at : String
deriving DecidableEq

/-- The barber_shop.db database: both tables plus the AUTOINCREMENT counter
backing appointments.id. The schema declares no uniqueness constraint on
appointments beyond the integer primary key. -/
structure Store where
  users : List UserRow
  appointments : List ApptRow
  nextId : Nat
deriving DecidableEq

/-- Freshly created database (setup_database): empty tables, ids start at 1. -/
def emptyStore : Store := { users := [], appointments := [], nextId := 1 }

/-- SELECT * FROM users WHERE user_id = ? (first row). -/
def findUser (s : Store) (uid : Nat) : Option UserRow :=
  s.users.find? (fun u => u.user_id == uid)

/-- SELECT ... FROM appointments WHERE id = ? (first row). -/
def findAppt (s : Store) (i : Nat) : Option ApptRow :=
  s.appointments.find? (fun a => a.id == i)

/-- The start handler's registration step (barberbot.py lines 109-122):
INSERT a users row only when no row with this user_id exists; the INSERT
sets user_id, username, first_name, last_name and registration_date (phone
stays NULL). now is the datetime.now() timestamp string. -/
def start (s : Store) (uid : Nat) (username : Option String) (first : String)
    (last : Option String) (now : String) : Store :=
  match findUser s uid with
  | some _ => s
  | none =>
    { s with
      users := s.users ++
        [{ user_id := uid, username := username, first_name := first,
           last_name := last, phone_number := none, registration_date := now }] }

/-- UPDATE users SET phone_number = ? WHERE user_id = ? (contact_info,
barberbot.py lines 481-484). -/
def setUserPhone (s : Store) (uid : Nat) (phone : String) : Store :=
  { s with
    users := s.users.map (fun u =>
      if u.user_id == uid then { u with phone_number := some phone } else u) }

/-- INSERT INTO appointments ... VALUES (..., 'scheduled', now) followed by
cursor.lastrowid (save_appointment, barberbot.py lines 504-511). The insert
is unconditional: nothing checks the (date, time) slot. Returns the updated
store and the new row id. -/
def insertAppointment (s : Store) (uid : Nat) (service : String) (price : Nat)
    (date time now : String) : Store × Nat :=
  ({ s with
     appointments := s.appointments ++
       [{ id := s.nextId, user_id := uid, service := service, price := price,
          date := date, time := time, status := "scheduled", created_at := now }],
     nextId := s.nextId + 1 },
   s.nextId)

/-- Effect of UPDATE appointments SET status = 'canceled' WHERE id = ? on a
single row. -/
def cancelRow (i : Nat) (a : ApptRow) : ApptRow :=
  if a.id == i then { a with status := "canceled" } else a

/-- UPDATE appointments SET status = 'canceled' WHERE id = ?
(handle_existing_appointment, barberbot.py lines 880-883). -/
def cancelAppointment (s : Store) (i : Nat) : Store :=
  { s with appointments := s.appointments.map (cancelRow i) }

/-- WHERE clause of the existing-appointment lookup (start_booking,
barberbot.py lines 183-192): user_id = ? AND status = 'scheduled' AND
date >= ?, with notBefore bound to the current dd.mm.yyyy date string. -/
def qualifies (uid : Nat) (notBefore : String) (a : ApptRow) : Bool :=
  a.user_id == uid && a.status == "scheduled" && strLe notBefore a.date

/-- ORDER BY date, time as SQLite evaluates it on the TEXT columns. -/
def apptLt (a b : ApptRow) : Bool :=
  strLt a.date b.date || (a.date == b.date && strLt a.time b.time)

/-- First row of an ORDER BY date, time LIMIT 1 scan: the minimum of the
list under apptLt (first such row on ties). -/
def minByKey : List ApptRow → Option ApptRow
  | [] => none
  | a :: l => some (l.foldl (fun best x => if apptLt x best then x else best) a)

/-- The existing-appointment lookup at booking entry (start_booking,
barberbot.py lines 183-194): SELECT ... WHERE user_id = ? AND
status = 'scheduled' AND date >= ? ORDER BY date, time LIMIT 1. -/
def findActiveAppointment (s : Store) (uid : Nat) (notBefore : String) :
    Option ApptRow :=
  minByKey (s.appointments.filter (qualifies uid notBefore))

/-- SELECT time FROM appointments WHERE date = ? AND status = 'scheduled'
(choose_date, barberbot.py lines 311-316). -/
def listBookedTimes (s : Store) (date : String) : List String :=
  (s.appointments.filter
    (fun a => a.date == date && a.status == "scheduled")).map (fun a => a.time)

/-- The fixed slot catalog (barberbot.py line 65). -/
def WORKING_HOURS : List String :=
  ["09:00", "10:00", "11:00", "12:00", "13:00", "14:00", "15:00", "16:00",
   "17:00", "18:00", "19:00", "20:00"]

/-- The fixed admin identity set (barberbot.py line 68). -/
def ADMIN_IDS : List Nat := [123456789]

/-- One rendered time-selection button: the slot time and whether it was
rendered selectable (the code renders a time_ callback) or blocked (the
code renders an unavailable callback). -/
structure TimeButton where
  time : String
  available : Bool
deriving DecidableEq

/-- The time-selection render loop (choose_date, barberbot.py lines 323-334):
one button per catalog slot in catalog order; a slot is blocked exactly when
its time occurs in the booked list. -/
def renderTimeButtons (booked : List String) : List TimeButton :=
  WORKING_HOURS.map (fun t => { time := t, available := !(booked.contains t) })

/-- Recipient of one notification send: the fixed channel or one admin id. -/
inductive SendTarget
  | channel
  | admin (aid : Nat)
deriving DecidableEq

/-- One attempted bot.send_message call and whether it raised; a raised send
is caught by the surrounding try/except and only logged. -/
structure SendAttempt where
  target : SendTarget
  ok : Bool
deriving DecidableEq

/-- User-visible replies of the modelled handlers, abstracted from the
rendered Uzbek texts. -/
inductive Reply
  | bookingSaved (id : Nat)
  | bookingCanceled
  | askPhone
  | invalidPhonePrompt
  | apptCanceled (id : Nat)
  | notFound
  | errorTryAgain
  | opCanceled
deriving DecidableEq

/-- Conversation scratch state: the context.user_data keys written by the
booking flow. selected_service holds the service display value the code
stores alongside service_price. -/
structure Scratch where
  selected_service : Option String
  service_price : Option Nat
  selected_date : Option String
  selected_time : Option String
  editing_appointment_id : Option Nat
deriving DecidableEq

/-- A cleared context.user_data (after context.user_data.clear()). -/
def Scratch.empty : Scratch :=
  { selected_service := none, service_price := none, selected_date := none,
    selected_time := none, editing_appointment_id := none }

/-- Conversation states of the booking handler, plus END for
ConversationHandler.END. -/
inductive FlowState
  | MAIN_MENU
  | SELECTING_SERVICE
  | CHOOSING_DATE
  | CHOOSING_TIME
  | CONFIRMING_APPOINTMENT
  | CONTACT_INFO
  | HANDLING_EXISTING_APPOINTMENT
  | END
deriving DecidableEq

/-- Failure environment for the fan-out: which sends raise when attempted.
The Telegram transport is external, so whether a send raises is an oracle. -/
structure Env where
  channelFails : Bool
  adminFails : Nat → Bool

/-- Result of one handler invocation: next conversation state, the database
after the handler, the scratch state it leaves behind, the notification
sends it attempted, and the user-visible replies it produced. -/
structure HandlerResult where
  state : FlowState
  store : Store
  scratch : Scratch
  sends : List SendAttempt
  messages : List Reply
deriving DecidableEq

/-- The save_appointment handler (barberbot.py lines 493-580): reads the four
scratch keys, INSERTs the appointment and commits, replies with the success
text, then attempts the channel send inside try/except and one send per
ADMIN_IDS entry each inside its own try/except, and finally clears
user_data and returns END. A missing scratch key raises in Python before the
database is touched and is caught by the dispatcher error handler; that path
is modelled by the fallback branch, which changes nothing. -/
def save_appointment (env : Env) (s : Store) (uid : Nat) (sc : Scratch)
    (now : String) : HandlerResult :=
  match sc.selected_service, sc.selected_date, sc.selected_time,
        sc.service_price with
  | some service, some date, some time, some price =>
    let r := insertAppointment s uid service price date time now
    { state := FlowState.END
      store := r.1
      scratch := Scratch.empty
      sends :=
        { target := SendTarget.channel, ok := !env.channelFails } ::
          ADMIN_IDS.map (fun aid =>
            { target := SendTarget.admin aid, ok := !(env.adminFails aid) })
      messages := [Reply.bookingSaved r.2] }
  | _, _, _, _ =>
    { state := FlowState.END, store := s, scratch := sc, sends := [],
      messages := [Reply.errorTryAgain] }

/-- Reply asking for the phone number and moving to the CONTACT_INFO state
(confirm_appointment, barberbot.py lines 438-450). -/
def askPhoneResult (s : Store) (sc : Scratch) : HandlerResult :=
  { state := FlowState.CONTACT_INFO, store := s, scratch := sc, sends := [],
    messages := [Reply.askPhone] }

/-- The confirm_appointment handler (barberbot.py lines 419-453): callback
data cancel ends the flow with only a farewell text; any other data is the
confirm path, which asks for a phone number when the user row is missing,
its phone is NULL, or its phone is the empty string (the Python truthiness
test), and otherwise runs save_appointment. -/
def confirm_appointment (env : Env) (s : Store) (uid : Nat) (data : String)
    (sc : Scratch) (now : String) : HandlerResult :=
  if data == "cancel" then
    { state := FlowState.END, store := s, scratch := sc, sends := [],
      messages := [Reply.bookingCanceled] }
  else
    match findUser s uid with
    | none => askPhoneResult s sc
    | some u =>
      match u.phone_number with
      | none => askPhoneResult s sc
      | some p =>
        if p == "" then askPhoneResult s sc
        else save_appointment env s uid sc now

/-- Inbound message in the CONTACT_INFO state: a shared contact carrying a
phone number, or a typed text. -/
inductive ContactInput
  | contact (phone : String)
  | text (raw : String)

/-- Characters removed by the str.strip() call in contact_info, restricted
to the ASCII whitespace characters relevant to phone input. -/
def isSpaceChar (c : Char) : Bool :=
  c == ' ' || c == '\t' || c == '\n' || c == '\r'

/-- Python str.strip(): drop leading and trailing whitespace. -/
def pyStrip (s : String) : String :=
  String.mk (((s.data.dropWhile isSpaceChar).reverse.dropWhile
    isSpaceChar).reverse)

/-- Python str.startswith applied to the one-character pattern used by the
phone validation. -/
def startsWithPlus (s : String) : Bool :=
  match s.data with
  | [] => false
  | c :: _ => c == '+'

/-- The contact_info handler (barberbot.py lines 456-490): a shared contact
is taken as-is; a typed text is stripped and must start with a plus sign and
have length at least 12, otherwise the handler re-prompts in CONTACT_INFO
without touching the database. An accepted phone is written to the user row
and the flow continues into save_appointment. -/
def contact_info (env : Env) (s : Store) (uid : Nat) (inp : ContactInput)
    (sc : Scratch) (now : String) : HandlerResult :=
  match inp with
  | ContactInput.contact p =>
    save_appointment env (setUserPhone s uid p) uid sc now
  | ContactInput.text raw =>
    let p := pyStrip raw
    if !(startsWithPlus p && decide (12 ≤ p.length)) then
      { state := FlowState.CONTACT_INFO, store := s, scratch := sc,
        sends := [], messages := [Reply.invalidPhonePrompt] }
    else
      save_appointment env (setUserPhone s uid p) uid sc now

/-- The cancel_appointment branch of handle_existing_appointment
(barberbot.py lines 868-902): a missing scratch id yields an error text and
the main menu with nothing written; otherwise the UPDATE runs, the user is
told the appointment was canceled, and user_data is cleared. -/
def handle_existing_cancel (s : Store) (sc : Scratch) : HandlerResult :=
  match sc.editing_appointment_id with
  | none =>
    { state := FlowState.MAIN_MENU, store := s, scratch := sc, sends := [],
      messages := [Reply.errorTryAgain] }
  | some i =>
    { state := FlowState.MAIN_MENU, store := cancelAppointment s i,
      scratch := Scratch.empty, sends := [],
      messages := [Reply.apptCanceled i] }

/-- The edit_appointment branch of handle_existing_appointment (barberbot.py
lines 823-866): a stale or absent id yields a not-found text and the main
menu; a live id is stashed in scratch for the cancel option. -/
def handle_existing_edit (s : Store) (i : Nat) (sc : Scratch) : HandlerResult :=
  match findAppt s i with
  | none =>
    { state := FlowState.MAIN_MENU, store := s, scratch := sc, sends := [],
      messages := [Reply.notFound] }
  | some _ =>
    { state := FlowState.HANDLING_EXISTING_APPOINTMENT, store := s,
      scratch := { sc with editing_appointment_id := some i }, sends := [],
      messages := [] }

/-- The cancel command fallback (barberbot.py lines 692-701): reply, clear
user_data, end the conversation. -/
def cancel (s : Store) (_sc : Scratch) : HandlerResult :=
  { state := FlowState.END, store := s, scratch := Scratch.empty,
    sends := [], messages := [Reply.opCanceled] }

/-- Store-mutating operations the bot can perform, used to define the
reachable database states. -/
inductive Event
  | register (uid : Nat) (username : Option String) (first : String)
      (last : Option String) (now : String)
  | book (uid : Nat) (service : String) (price : Nat) (date time now : String)
  | cancelAppt (i : Nat)
  | setPhone (uid : Nat) (phone : String)

/-- Effect of one store-mutating operation. -/
def stepE (s : Store) : Event → Store
  | Event.register uid username first last now =>
    start s uid username first last now
  | Event.book uid service price date time now =>
    (insertAppointment s uid service price date time now).1
  | Event.cancelAppt i => cancelAppointment s i
  | Event.setPhone uid phone => setUserPhone s uid phone

/-- Database states reachable from a fresh database through the bot's write
operations. -/
inductive Reachable : Store → Prop
  | init : Reachable emptyStore
  | step {s : Store} (e : Event) : Reachable s → Reachable (stepE s e)

/-- Decidable form of the slot-exclusivity invariant: no two distinct
appointment rows are both scheduled for the same (date, time) pair. -/
def slotExclusiveB (s : Store) : Bool :=
  s.appointments.all fun a =>
    s.appointments.all fun b =>
      !(a.status == "scheduled" && b.status == "scheduled" &&
        a.date == b.date && a.time == b.time && !(a.id == b.id))

/-- Structural invariant of reachable databases: every appointment id is
below the AUTOINCREMENT counter and every status is one of the two literals
the code writes. -/
def storeInv (s : Store) : Prop :=
  ∀ a ∈ s.appointments,
    a.id < s.nextId ∧ (a.status = "scheduled" ∨ a.status = "canceled")

/-- Claim-side reading of the spec words for C2: numeric value of a
day.month.year date text, ordered as calendar dates. -/
def digitsToNat (l : List Char) : Nat :=
  l.foldl (fun n c => n * 10 + (c.toNat - 48)) 0

/-- Split a character list at the dot separators of the date format. -/
def splitDots : List Char → List (List Char)
  | [] => [[]]
  | c :: rest =>
    if c == '.' then [] :: splitDots rest
    else
      match splitDots rest with
      | [] => [[c]]
      | g :: gs => (c :: g) :: gs

/-- Claim-side calendar value of a day.month.year date text: year, then
month, then day. Two such texts compare as calendar dates exactly when
their dmyVal values compare the same way. -/
def dmyVal (s : String) : Nat :=
  match splitDots s.data with
  | [d, m, y] => digitsToNat y * 10000 + digitsToNat m * 100 + digitsToNat d
  | _ => 0

/-- Failure-free environment: every send succeeds. -/
def env0 : Env := { channelFails := false, adminFails := fun _ => false }

/-- Environment in which every send raises. -/
def envAllFail : Env := { channelFails := true, adminFails := fun _ => true }

/-- Scratch state of a booking flow that reached CONFIRMING: all four
selection keys populated. -/
def scFull : Scratch :=
  { selected_service := some "Soqol olish", service_price := some 25000,
    selected_date := some "15.06.2025", selected_time := some "11:00",
    editing_appointment_id := none }

/-- First booking of the 15.06.2025 11:00 slot. -/
def evBook1 : Event :=
  Event.book 1 "Soqol olish" 25000 "15.06.2025" "11:00" "2025-06-01 10:00:00"

/-- Second booking of the very same slot by another user. -/
def evBook2 : Event :=
  Event.book 2 "Soqol olish" 25000 "15.06.2025" "11:00" "2025-06-01 10:00:05"

/-- Database after the first booking of the slot. -/
def exAfter1 : Store := stepE emptyStore evBook1

/-- Database after both bookings of the same slot. -/
def exDouble : Store := stepE exAfter1 evBook2

/-- Fixture appointment row: scheduled on 01.01.2026, stored as TEXT. -/
def exRowC2 : ApptRow :=
  { id := 1, user_id := 1, service := "Soqol olish", price := 25000,
    date := "01.01.2026", time := "10:00", status := "scheduled",
    created_at := "2025-12-01 09:00:00" }

/-- Fixture database for the lookup claim: one scheduled appointment. -/
def exStoreC2 : Store := { users := [], appointments := [exRowC2], nextId := 2 }

/-- Fixture user row without a stored phone. -/
def exUser1 : UserRow :=
  { user_id := 1, username := some "abdul", first_name := "Abdul",
    last_name := none, phone_number := none,
    registration_date := "2025-06-01 09:00:00" }

/-- Fixture database holding only that user. -/
def exStoreC6 : Store := { users := [exUser1], appointments := [], nextId := 1 }

theorem charListLt_irrefl (l : List Char) : charListLt l l = false := by
  induction l with
  | nil => rfl
  | cons c cs ih => simp [charListLt, ih]

theorem charListLt_trans {a : List Char} : ∀ {b c : List Char},
    charListLt a b = true → charListLt b c = true → charListLt a c = true := by
  induction a with
  | nil =>
    intro b c h1 h2
    cases b with
    | nil => simp [charListLt] at h1
    | cons y ys =>
      cases c with
      | nil => simp [charListLt] at h2
      | cons z zs => simp [charListLt]
  | cons x xs ih =>
    intro b c h1 h2
    cases b with
    | nil => simp [charListLt] at h1
    | cons y ys =>
      cases c with
      | nil => simp [charListLt] at h2
      | cons z zs =>
        simp only [charListLt] at h1 h2 ⊢
        by_cases hxy : x.toNat < y.toNat
        · by_cases hyz : y.toNat < z.toNat
          · simp [Nat.lt_trans hxy hyz]
          · by_cases hzy : z.toNat < y.toNat
            · simp [hyz, hzy] at h2
            · have hxz : x.toNat < z.toNat := by omega
              simp [hxz]
        · by_cases hyx : y.toNat < x.toNat
          · simp [hxy, hyx] at h1
          · simp only [hxy, hyx, if_false] at h1
            by_cases hyz : y.toNat < z.toNat
            · have hxz : x.toNat < z.toNat := by omega
              simp [hxz]
            · by_cases hzy : z.toNat < y.toNat
              · simp [hyz, hzy] at h2
              · simp only [hyz, hzy, if_false] at h2
                have hxz1 : ¬ x.toNat < z.toNat := by omega
                have hxz2 : ¬ z.toNat < x.toNat := by omega
                simp only [hxz1, hxz2, if_false]
                exact ih h1 h2

theorem charListLt_connex {a : List Char} : ∀ {b : List Char},
    charListLt a b = false → charListLt b a = false → a = b := by
  induction a with
  | nil =>
    intro b h1 _
    cases b with
    | nil => rfl
    | cons y ys => simp [charListLt] at h1
  | cons x xs ih =>
    intro b h1 h2
    cases b with
    | nil => simp [charListLt] at h2
    | cons y ys =>
      simp only [charListLt] at h1 h2
      by_cases hxy : x.toNat < y.toNat
      · simp [hxy] at h1
      · by_cases hyx : y.toNat < x.toNat
        · simp [hyx] at h2
        · simp only [hxy, hyx, if_false] at h1 h2
          have hn : x.toNat = y.toNat := by omega
          have hc : x = y := Char.eq_of_val_eq (UInt32.ext hn)
          rw [hc, ih h1 h2]

theorem strLt_irrefl (a : String) : strLt a a = false :=
  charListLt_irrefl a.data

theorem strLt_trans {a b c : String} (h1 : strLt a b = true)
    (h2 : strLt b c = true) : strLt a c = true :=
  charListLt_trans h1 h2

theorem strLt_connex {a b : String} (h1 : strLt a b = false)
    (h2 : strLt b a = false) : a = b := by
  cases a with
  | mk da =>
    cases b with
    | mk db =>
      have : da = db := charListLt_connex h1 h2
      rw [this]

theorem strLt_le_lt {a b c : String} (h1 : strLt b a = false)
    (h2 : strLt b c = true) : strLt a c = true := by
  cases hab : strLt a b with
  | true => exact strLt_trans hab h2
  | false => rw [strLt_connex hab h1]; exact h2

theorem apptLt_irrefl (a : ApptRow) : apptLt a a = false := by
  simp [apptLt, strLt_irrefl]

theorem apptLt_trans {a b c : ApptRow} (h1 : apptLt a b = true)
    (h2 : apptLt b c = true) : apptLt a c = true := by
  simp only [apptLt, Bool.or_eq_true, Bool.and_eq_true, beq_iff_eq] at h1 h2 ⊢
  rcases h1 with h1 | ⟨h1d, h1t⟩
  · rcases h2 with h2 | ⟨h2d, h2t⟩
    · exact Or.inl (strLt_trans h1 h2)
    · exact Or.inl (h2d ▸ h1)
  · rcases h2 with h2 | ⟨h2d, h2t⟩
    · exact Or.inl (h1d ▸ h2)
    · exact Or.inr ⟨h1d.trans h2d, strLt_trans h1t h2t⟩

theorem apptLt_le_lt {a b c : ApptRow} (h1 : apptLt b a = false)
    (h2 : apptLt b c = true) : apptLt a c = true := by
  simp only [apptLt, Bool.or_eq_false_iff, Bool.or_eq_true, Bool.and_eq_true,
    beq_iff_eq] at h1 h2 ⊢
  obtain ⟨h1d, h1r⟩ := h1
  by_cases hdb : b.date = a.date
  · have h1t : strLt b.time a.time = false := by
      cases ht : strLt b.time a.time with
      | false => rfl
      | true => simp [hdb, ht] at h1r
    rcases h2 with h2 | ⟨h2d, h2t⟩
    · exact Or.inl (hdb ▸ h2)
    · exact Or.inr ⟨hdb ▸ h2d, strLt_le_lt h1t h2t⟩
  · rcases h2 with h2 | ⟨h2d, h2t⟩
    · exact Or.inl (strLt_le_lt h1d h2)
    · have hab : strLt a.date b.date = true := by
        cases hc : strLt a.date b.date with
        | true => rfl
        | false => exact absurd (strLt_connex h1d hc) hdb
      exact Or.inl (h2d ▸ hab)

theorem foldl_min_spec (l : List ApptRow) (a : ApptRow) :
    (l.foldl (fun best x => if apptLt x best then x else best) a ∈ a :: l) ∧
    (∀ x ∈ a :: l,
      apptLt x (l.foldl (fun best x => if apptLt x best then x else best) a)
        = false) := by
  induction l generalizing a with
  | nil =>
    refine ⟨by simp, ?_⟩
    intro x hx
    simp only [List.mem_singleton] at hx
    rw [hx]
    exact apptLt_irrefl a
  | cons y l ih =>
    have hfold : (y :: l).foldl (fun best x => if apptLt x best then x else best) a
        = l.foldl (fun best x => if apptLt x best then x else best)
            (if apptLt y a then y else a) := rfl
    by_cases hya : apptLt y a = true
    · obtain ⟨ihmem, ihmin⟩ := ih y
      rw [hfold, if_pos hya]
      refine ⟨?_, ?_⟩
      · rcases List.mem_cons.mp ihmem with h | h
        · rw [h]; simp
        · simp [h]
      · intro x hx
        rcases List.mem_cons.mp hx with hxa | hx2
        · rw [hxa]
          cases hc : apptLt a (l.foldl (fun best x => if apptLt x best then x else best) y) with
          | false => rfl
          | true =>
            have := apptLt_trans hya hc
            rw [ihmin y (by simp)] at this
            exact this.symm
        · exact ihmin x hx2
    · have hya2 : apptLt y a = false := by
        cases h : apptLt y a with
        | false => rfl
        | true => exact absurd h hya
      obtain ⟨ihmem, ihmin⟩ := ih a
      rw [hfold, if_neg hya]
      refine ⟨?_, ?_⟩
      · rcases List.mem_cons.mp ihmem with h | h
        · rw [h]; simp
        · simp [h]
      · intro x hx
        rcases List.mem_cons.mp hx with hxa | hx2
        · rw [hxa]
          exact ihmin a (by simp)
        rcases List.mem_cons.mp hx2 with hxy | hxl
        · rw [hxy]
          cases hc : apptLt y (l.foldl (fun best x => if apptLt x best then x else best) a) with
          | false => rfl
          | true =>
            have := apptLt_le_lt hya2 hc
            rw [ihmin a (by simp)] at this
            exact this.symm
        · exact ihmin x (by simp [hxl])

theorem minByKey_none {l : List ApptRow} : minByKey l = none ↔ l = [] := by
  cases l with
  | nil => simp [minByKey]
  | cons a t => simp [minByKey]

theorem minByKey_spec {l : List ApptRow} {a : ApptRow} (h : minByKey l = some a) :
    a ∈ l ∧ ∀ x ∈ l, apptLt x a = false := by
  cases l with
  | nil => simp [minByKey] at h
  | cons b t =>
    simp only [minByKey, Option.some.injEq] at h
    obtain ⟨hmem, hmin⟩ := foldl_min_spec t b
    rw [h] at hmem hmin
    exact ⟨hmem, hmin⟩

/-- C2 (amended): the existing-appointment lookup returns the appointment of
the user that is earliest in byte-lexicographic order of the raw (date, time)
TEXT pair, among the scheduled rows whose date text is lexicographically at
or after notBefore; it returns none exactly when no such row exists. Because
dates are stored as day.month.year text, this lexicographic order is not
calendar order across month or year boundaries. -/
theorem claim_C2_amended (s : Store) (uid : Nat) (nb : String) :
    (findActiveAppointment s uid nb = none ↔
      ∀ a ∈ s.appointments, qualifies uid nb a = false) ∧
    (∀ a, findActiveAppointment s uid nb = some a →
      a ∈ s.appointments ∧ qualifies uid nb a = true ∧
      ∀ b ∈ s.appointments, qualifies uid nb b = true → apptLt b a = false) := by
  constructor
  · rw [findActiveAppointment, minByKey_none, List.filter_eq_nil_iff]
    simp
  · intro a h
    rw [findActiveAppointment] at h
    obtain ⟨hmem, hmin⟩ := minByKey_spec h
    rw [List.mem_filter] at hmem
    refine ⟨hmem.1, hmem.2, ?_⟩
    intro b hb hq
    exact hmin b (List.mem_filter.mpr ⟨hb, hq⟩)

/-- C2 witness: on a concrete store the lookup returns the stored row and
that row satisfies the lexicographic characterisation. -/
theorem claim_C2_amended_witness :
    exRowC2 ∈ exStoreC2.appointments ∧
    qualifies 1 "01.01.2026" exRowC2 = true ∧
    ∀ b ∈ exStoreC2.appointments,
      qualifies 1 "01.01.2026" b = true → apptLt b exRowC2 = false :=
  (claim_C2_amended exStoreC2 1 "01.01.2026").2 exRowC2 (by decide)

/-- C2 counterexample: user 1 has a scheduled appointment on 01.01.2026,
calendar-on-or-after the reference date 31.12.2025, yet the lookup returns
none, because the SQL comparison is lexicographic on the day.month.year
text. -/
theorem claim_C2_counterexample :
    findActiveAppointment exStoreC2 1 "31.12.2025" = none ∧
    exRowC2 ∈ exStoreC2.appointments ∧
    exRowC2.user_id = 1 ∧
    exRowC2.status = "scheduled" ∧
    dmyVal "31.12.2025" ≤ dmyVal exRowC2.date := by decide

/-- C5: choosing cancel at the CONFIRMING state ends the flow and leaves the
database untouched: the abandon path writes no appointment row. -/
theorem claim_C5 (env : Env) (s : Store) (uid : Nat) (sc : Scratch)
    (now : String) :
    (confirm_appointment env s uid "cancel" sc now).state = FlowState.END ∧
    (confirm_appointment env s uid "cancel" sc now).store = s :=
  ⟨rfl, rfl⟩

/-- C3 counterexample: abandoning at CONFIRMING via the cancel button is a
terminal transition of the flow, yet the scratch keys populated earlier in
the flow survive it instead of being cleared. -/
theorem claim_C3_counterexample :
    (confirm_appointment env0 emptyStore 1 "cancel" scFull "t").state
        = FlowState.END ∧
    (confirm_appointment env0 emptyStore 1 "cancel" scFull "t").scratch
        ≠ Scratch.empty := by decide

/-- C3 (amended): conversation scratch state is cleared on completion of
save_appointment, on the explicit cancel command fallback, and on cancelling
an appointment through the edit branch; but abandoning at CONFIRMING via the
inline cancel button ends the flow with the scratch keys left unchanged. -/
theorem claim_C3_amended :
    (∀ env s uid sc now service date time price,
      sc.selected_service = some service → sc.selected_date = some date →
      sc.selected_time = some time → sc.service_price = some price →
      (save_appointment env s uid sc now).scratch = Scratch.empty) ∧
    (∀ s sc, (cancel s sc).scratch = Scratch.empty) ∧
    (∀ s sc i, sc.editing_appointment_id = some i →
      (handle_existing_cancel s sc).scratch = Scratch.empty) ∧
    (∀ env s uid sc now,
      (confirm_appointment env s uid "cancel" sc now).scratch = sc) := by
  refine ⟨?_, ?_, ?_, ?_⟩
  · intro env s uid sc now service date time price h1 h2 h3 h4
    simp [save_appointment, h1, h2, h3, h4]
  · intro s sc
    rfl
  · intro s sc i h
    simp [handle_existing_cancel, h]
  · intro env s uid sc now
    rfl

/-- C3 witness: the amended clearing behaviour at concrete inputs. -/
theorem claim_C3_amended_witness :
    (save_appointment env0 emptyStore 1 scFull "t").scratch = Scratch.empty ∧
    (confirm_appointment env0 emptyStore 1 "cancel" scFull "t").scratch
        = scFull :=
  ⟨claim_C3_amended.1 env0 emptyStore 1 scFull "t" "Soqol olish" "15.06.2025"
      "11:00" 25000 rfl rfl rfl rfl,
   claim_C3_amended.2.2.2 env0 emptyStore 1 scFull "t"⟩

/-- C4: on confirmed booking the row is written and stays written, the user
sees the success reply, and the fan-out attempts exactly one channel send
plus one send per admin identity; none of this depends on which sends fail,
so failures are swallowed, roll nothing back, and block no other send. -/
theorem claim_C4 (env env2 : Env) (s : Store) (uid : Nat) (sc : Scratch)
    (now service date time : String) (price : Nat)
    (h1 : sc.selected_service = some service)
    (h2 : sc.selected_date = some date)
    (h3 : sc.selected_time = some time)
    (h4 : sc.service_price = some price) :
    (save_appointment env s uid sc now).store.appointments =
      s.appointments ++
        [{ id := s.nextId, user_id := uid, service := service, price := price,
           date := date, time := time, status := "scheduled",
           created_at := now }] ∧
    (save_appointment env s uid sc now).sends.map SendAttempt.target =
      SendTarget.channel :: ADMIN_IDS.map SendTarget.admin ∧
    (save_appointment env s uid sc now).messages =
      [Reply.bookingSaved s.nextId] ∧
    (save_appointment env s uid sc now).store =
      (save_appointment env2 s uid sc now).store ∧
    (save_appointment env s uid sc now).messages =
      (save_appointment env2 s uid sc now).messages := by
  simp [save_appointment, h1, h2, h3, h4, insertAppointment, List.map_map,
    Function.comp]

/-- C4 witness: with every send failing, the row is still written, the user
still sees the success reply, and all sends were attempted. -/
theorem claim_C4_witness :
    (save_appointment envAllFail emptyStore 1 scFull "t").store.appointments =
      [{ id := 1, user_id := 1, service := "Soqol olish", price := 25000,
         date := "15.06.2025", time := "11:00", status := "scheduled",
         created_at := "t" }] ∧
    (save_appointment envAllFail emptyStore 1 scFull "t").sends.map
        SendAttempt.target =
      SendTarget.channel :: ADMIN_IDS.map SendTarget.admin ∧
    (save_appointment envAllFail emptyStore 1 scFull "t").messages =
      [Reply.bookingSaved 1] := by
  have h := claim_C4 envAllFail env0 emptyStore 1 scFull "t" "Soqol olish"
    "15.06.2025" "11:00" 25000 rfl rfl rfl rfl
  exact ⟨h.1, h.2.1, h.2.2.1⟩

theorem start_appointments (s : Store) (uid : Nat) (username : Option String)
    (first : String) (last : Option String) (now : String) :
    (start s uid username first last now).appointments = s.appointments := by
  unfold start
  cases findUser s uid <;> rfl

theorem start_nextId (s : Store) (uid : Nat) (username : Option String)
    (first : String) (last : Option String) (now : String) :
    (start s uid username first last now).nextId = s.nextId := by
  unfold start
  cases findUser s uid <;> rfl

theorem reachable_storeInv {s : Store} (h : Reachable s) : storeInv s := by
  induction h with
  | init =>
    intro a ha
    simp [emptyStore] at ha
  | step e hr ih =>
    cases e with
    | register uid username first last now =>
      intro a ha
      simp only [stepE] at ha ⊢
      rw [start_appointments] at ha
      rw [start_nextId]
      exact ih a ha
    | book uid service price date time now =>
      intro a ha
      simp only [stepE, insertAppointment, List.mem_append,
        List.mem_singleton] at ha ⊢
      rcases ha with ha | ha
      · obtain ⟨hlt, hst⟩ := ih a ha
        exact ⟨by omega, hst⟩
      · rw [ha]
        exact ⟨Nat.lt_succ_self _, Or.inl rfl⟩
    | cancelAppt i =>
      intro a ha
      simp only [stepE, cancelAppointment, List.mem_map] at ha ⊢
      obtain ⟨b, hb, hba⟩ := ha
      obtain ⟨hlt, hst⟩ := ih b hb
      subst hba
      unfold cancelRow
      by_cases hid : (b.id == i) = true
      · rw [if_pos hid]
        exact ⟨hlt, Or.inr rfl⟩
      · rw [if_neg hid]
        exact ⟨hlt, hst⟩
    | setPhone uid phone =>
      intro a ha
      simp only [stepE, setUserPhone] at ha ⊢
      exact ih a ha

theorem slotExclusiveB_eq_false {s : Store} {a b : ApptRow}
    (ha : a ∈ s.appointments) (hb : b ∈ s.appointments)
    (hsa : a.status = "scheduled") (hsb : b.status = "scheduled")
    (hd : a.date = b.date) (ht : a.time = b.time) (hid : a.id ≠ b.id) :
    slotExclusiveB s = false := by
  cases hx : slotExclusiveB s with
  | false => rfl
  | true =>
    rw [slotExclusiveB, List.all_eq_true] at hx
    have h1 := hx a ha
    rw [List.all_eq_true] at h1
    have h2 := h1 b hb
    simp [hsa, hsb, hd, ht, hid] at h2

/-- C1 counterexample: two successive booking inserts for the same
(date, time) slot both persist; the resulting database is reachable, holds
two scheduled rows for 15.06.2025 11:00, and the second insert was not
rejected. -/
theorem claim_C1_counterexample :
    Reachable exDouble ∧ slotExclusiveB exDouble = false ∧
    exDouble.appointments.length = 2 := by
  refine ⟨?_, by decide, by decide⟩
  show Reachable (stepE (stepE emptyStore evBook1) evBook2)
  exact Reachable.step evBook2 (Reachable.step evBook1 Reachable.init)

/-- C1 (amended): the store enforces no slot exclusivity. The appointments
table has no uniqueness constraint and save_appointment inserts
unconditionally, so a booking for an already-occupied slot persists a second
scheduled row and is reported to the booker as success, violating the
slot-exclusivity invariant; occupancy is reflected only at the
time-selection render, where booked catalog times are displayed as
unavailable. -/
theorem claim_C1_amended (env : Env) (s : Store) (hre : Reachable s)
    (uid : Nat) (sc : Scratch) (service : String) (price : Nat)
    (date time now : String)
    (h1 : sc.selected_service = some service)
    (h2 : sc.selected_date = some date)
    (h3 : sc.selected_time = some time)
    (h4 : sc.service_price = some price)
    (hocc : time ∈ listBookedTimes s date) :
    (save_appointment env s uid sc now).store.appointments =
      s.appointments ++
        [{ id := s.nextId, user_id := uid, service := service, price := price,
           date := date, time := time, status := "scheduled",
           created_at := now }] ∧
    (save_appointment env s uid sc now).messages =
      [Reply.bookingSaved s.nextId] ∧
    slotExclusiveB (save_appointment env s uid sc now).store = false ∧
    (time ∈ WORKING_HOURS →
      TimeButton.mk time false ∈ renderTimeButtons (listBookedTimes s date)) := by
  have hstore : (save_appointment env s uid sc now).store.appointments =
      s.appointments ++
        [{ id := s.nextId, user_id := uid, service := service, price := price,
           date := date, time := time, status := "scheduled",
           created_at := now }] := by
    simp [save_appointment, h1, h2, h3, h4, insertAppointment]
  refine ⟨hstore, ?_, ?_, ?_⟩
  · simp [save_appointment, h1, h2, h3, h4, insertAppointment]
  · simp only [listBookedTimes, List.mem_map, List.mem_filter,
      Bool.and_eq_true, beq_iff_eq] at hocc
    obtain ⟨b, ⟨hbmem, hbdate, hbstat⟩, hbtime⟩ := hocc
    have hbid : b.id < s.nextId := (reachable_storeInv hre b hbmem).1
    apply slotExclusiveB_eq_false (a := b)
      (b := { id := s.nextId, user_id := uid, service := service,
              price := price, date := date, time := time,
              status := "scheduled", created_at := now })
    · rw [hstore]
      exact List.mem_append_left _ hbmem
    · rw [hstore]
      exact List.mem_append_right _ (by simp)
    · exact hbstat
    · rfl
    · exact hbdate
    · exact hbtime
    · intro hcontra
      rw [hcontra] at hbid
      exact absurd hbid (Nat.lt_irrefl _)
  · intro hwh
    simp only [renderTimeButtons, List.mem_map]
    refine ⟨time, hwh, ?_⟩
    simp [hocc]

/-- C1 witness: booking the already-occupied 15.06.2025 11:00 slot on the
concrete reachable store persists a second scheduled row, leaving a store
that violates slot exclusivity. -/
theorem claim_C1_amended_witness :
    slotExclusiveB
      (save_appointment env0 exAfter1 2 scFull "2025-06-01 10:00:05").store
        = false :=
  (claim_C1_amended env0 exAfter1 (Reachable.step evBook1 Reachable.init) 2
    scFull "Soqol olish" 25000 "15.06.2025" "11:00" "2025-06-01 10:00:05"
    rfl rfl rfl rfl (by decide)).2.2.1

theorem find?_append_of_none {α : Type} {l1 l2 : List α} {p : α → Bool}
    (h : l1.find? p = none) : (l1 ++ l2).find? p = l2.find? p := by
  induction l1 with
  | nil => rfl
  | cons a l ih =>
    cases hpa : p a with
    | true => simp [List.find?_cons, hpa] at h
    | false =>
      simp only [List.cons_append, List.find?_cons, hpa] at h ⊢
      exact ih h

theorem find_setRow (l : List UserRow) (uid : Nat) (p : String) :
    (l.map (fun u => if u.user_id == uid
        then { u with phone_number := some p } else u)).find?
      (fun u => u.user_id == uid) =
    (l.find? (fun u => u.user_id == uid)).map
      (fun u => { u with phone_number := some p }) := by
  induction l with
  | nil => rfl
  | cons u l ih =>
    rw [List.map_cons]
    cases hm : u.user_id == uid with
    | true =>
      rw [if_pos rfl,
        @List.find?_cons_of_pos UserRow (fun v => v.user_id == uid)
          { u with phone_number := some p } _ hm,
        @List.find?_cons_of_pos UserRow (fun v => v.user_id == uid) u _ hm]
      rfl
    | false =>
      have hneg : ¬ ((u.user_id == uid) = true) := by simp [hm]
      rw [if_neg (by simp : ¬ (false = true)),
        @List.find?_cons_of_neg UserRow (fun v => v.user_id == uid) u _ hneg,
        @List.find?_cons_of_neg UserRow (fun v => v.user_id == uid) u _ hneg]
      exact ih

theorem findUser_setPhone (s : Store) (uid : Nat) (p : String) :
    findUser (setUserPhone s uid p) uid =
      (findUser s uid).map (fun u => { u with phone_number := some p }) :=
  find_setRow s.users uid p

theorem map_id_of_mem {α : Type} {l : List α} {f : α → α}
    (h : ∀ a ∈ l, f a = a) : l.map f = l := by
  induction l with
  | nil => rfl
  | cons a l ih =>
    rw [List.map_cons, h a (by simp), ih (fun b hb => h b (by simp [hb]))]

theorem cancelRow_canceled {i : Nat} {a : ApptRow}
    (h : a.status = "canceled") : cancelRow i a = a := by
  unfold cancelRow
  by_cases hid : (a.id == i) = true
  · rw [if_pos hid]
    cases a
    simp_all
  · rw [if_neg hid]

theorem start_of_found {s : Store} {uid : Nat} {u : UserRow}
    (h : findUser s uid = some u) (username : Option String) (first : String)
    (last : Option String) (now : String) :
    start s uid username first last now = s := by
  unfold start
  rw [h]

theorem start_of_absent {s : Store} {uid : Nat}
    (h : findUser s uid = none) (username : Option String) (first : String)
    (last : Option String) (now : String) :
    start s uid username first last now =
      { s with
        users := s.users ++
          [{ user_id := uid, username := username, first_name := first,
             last_name := last, phone_number := none,
             registration_date := now }] } := by
  unfold start
  rw [h]

theorem save_appointment_store_eq (env : Env) (s : Store) (uid : Nat)
    (sc : Scratch) (now service date time : String) (price : Nat)
    (h1 : sc.selected_service = some service)
    (h2 : sc.selected_date = some date)
    (h3 : sc.selected_time = some time)
    (h4 : sc.service_price = some price) :
    (save_appointment env s uid sc now).store =
      (insertAppointment s uid service price date time now).1 := by
  simp [save_appointment, h1, h2, h3, h4]

theorem save_appointment_state_eq (env : Env) (s : Store) (uid : Nat)
    (sc : Scratch) (now service date time : String) (price : Nat)
    (h1 : sc.selected_service = some service)
    (h2 : sc.selected_date = some date)
    (h3 : sc.selected_time = some time)
    (h4 : sc.service_price = some price) :
    (save_appointment env s uid sc now).state = FlowState.END := by
  simp [save_appointment, h1, h2, h3, h4]

/-- C6 counterexample: the typed input beginning with a space does not start
with a plus sign, so by the claim it must be re-prompted with no store
write; the handler strips whitespace before validating, accepts it, stores
the phone and writes the appointment row. -/
theorem claim_C6_counterexample :
    startsWithPlus " +998901234567" = false ∧
    (contact_info env0 exStoreC6 1 (ContactInput.text " +998901234567")
        scFull "t").state = FlowState.END ∧
    (contact_info env0 exStoreC6 1 (ContactInput.text " +998901234567")
        scFull "t").store.appointments.length = 1 := by decide

/-- C6 (amended): the phone validation applies to the typed text after
stripping surrounding whitespace: when the stripped text fails the check
(must start with a plus sign and have length at least 12) the handler
re-prompts in the same CONTACT_INFO state with the corrective message and
performs no store write; when the stripped text passes, it is stored as the
user's phone and the appointment row is written. -/
theorem claim_C6_amended (env : Env) (s : Store) (uid : Nat) (sc : Scratch)
    (now raw service date time : String) (price : Nat) (u : UserRow)
    (h1 : sc.selected_service = some service)
    (h2 : sc.selected_date = some date)
    (h3 : sc.selected_time = some time)
    (h4 : sc.service_price = some price)
    (hu : findUser s uid = some u) :
    ((startsWithPlus (pyStrip raw) && decide (12 ≤ (pyStrip raw).length))
        = false →
      contact_info env s uid (ContactInput.text raw) sc now =
        { state := FlowState.CONTACT_INFO, store := s, scratch := sc,
          sends := [], messages := [Reply.invalidPhonePrompt] }) ∧
    ((startsWithPlus (pyStrip raw) && decide (12 ≤ (pyStrip raw).length))
        = true →
      findUser (contact_info env s uid (ContactInput.text raw) sc now).store
          uid = some { u with phone_number := some (pyStrip raw) } ∧
      (contact_info env s uid
          (ContactInput.text raw) sc now).store.appointments =
        s.appointments ++
          [{ id := s.nextId, user_id := uid, service := service,
             price := price, date := date, time := time,
             status := "scheduled", created_at := now }]) := by
  constructor
  · intro hval
    simp only [contact_info]
    rw [hval]
    simp
  · intro hval
    have hs : contact_info env s uid (ContactInput.text raw) sc now =
        save_appointment env (setUserPhone s uid (pyStrip raw)) uid sc now := by
      simp only [contact_info]
      rw [hval]
      simp
    rw [hs, save_appointment_store_eq env _ uid sc now service date time price
      h1 h2 h3 h4]
    constructor
    · show ((insertAppointment (setUserPhone s uid (pyStrip raw)) uid service
          price date time now).1).users.find? (fun v => v.user_id == uid) = _
      have : ((insertAppointment (setUserPhone s uid (pyStrip raw)) uid service
          price date time now).1).users = (setUserPhone s uid (pyStrip raw)).users := rfl
      rw [this]
      have h5 := findUser_setPhone s uid (pyStrip raw)
      rw [findUser] at h5
      rw [h5, hu]
      rfl
    · show (setUserPhone s uid (pyStrip raw)).appointments ++ _ = _
      rfl

/-- C6 witness: a typed text failing the stripped check is re-prompted with
no write; one passing it results in exactly the inserted row. -/
theorem claim_C6_amended_witness :
    contact_info env0 exStoreC6 1 (ContactInput.text "abc") scFull "t" =
      { state := FlowState.CONTACT_INFO, store := exStoreC6, scratch := scFull,
        sends := [], messages := [Reply.invalidPhonePrompt] } ∧
    (contact_info env0 exStoreC6 1 (ContactInput.text "+998901234567")
        scFull "t").store.appointments =
      [{ id := 1, user_id := 1, service := "Soqol olish", price := 25000,
         date := "15.06.2025", time := "11:00", status := "scheduled",
         created_at := "t" }] := by
  refine ⟨?_, ?_⟩
  · exact (claim_C6_amended env0 exStoreC6 1 scFull "t" "abc" "Soqol olish"
      "15.06.2025" "11:00" 25000 exUser1 rfl rfl rfl rfl rfl).1 (by decide)
  · have h := (claim_C6_amended env0 exStoreC6 1 scFull "t" "+998901234567"
      "Soqol olish" "15.06.2025" "11:00" 25000 exUser1 rfl rfl rfl rfl
      rfl).2 (by decide)
    exact h.2

/-- C7: cancellation by id is graceful under staleness: the UPDATE touches
no row when the id is absent, is a no-op when every row with the id is
already canceled, changes a row only by the scheduled-to-canceled status
transition, and the handler paths for a missing scratch id and for a stale
edit id reply with an error or not-found text and touch nothing. -/
theorem claim_C7 (s : Store) (hre : Reachable s) (i : Nat) (sc : Scratch) :
    ((∀ a ∈ s.appointments, a.id ≠ i) → cancelAppointment s i = s) ∧
    ((∀ a ∈ s.appointments, a.id = i → a.status = "canceled") →
      cancelAppointment s i = s) ∧
    (∀ a ∈ s.appointments,
      cancelRow i a = a ∨
        (a.status = "scheduled" ∧
          cancelRow i a = { a with status := "canceled" })) ∧
    ((cancelAppointment s i).appointments =
      s.appointments.map (cancelRow i)) ∧
    (sc.editing_appointment_id = none →
      handle_existing_cancel s sc =
        { state := FlowState.MAIN_MENU, store := s, scratch := sc,
          sends := [], messages := [Reply.errorTryAgain] }) ∧
    (findAppt s i = none →
      handle_existing_edit s i sc =
        { state := FlowState.MAIN_MENU, store := s, scratch := sc,
          sends := [], messages := [Reply.notFound] }) := by
  refine ⟨?_, ?_, ?_, rfl, ?_, ?_⟩
  · intro h
    have hmap : s.appointments.map (cancelRow i) = s.appointments := by
      apply map_id_of_mem
      intro a ha
      unfold cancelRow
      rw [if_neg]
      simp [h a ha]
    unfold cancelAppointment
    rw [hmap]
  · intro h
    have hmap : s.appointments.map (cancelRow i) = s.appointments := by
      apply map_id_of_mem
      intro a ha
      by_cases hid : (a.id == i) = true
      · exact cancelRow_canceled (h a ha (by simpa using hid))
      · unfold cancelRow
        rw [if_neg hid]
    unfold cancelAppointment
    rw [hmap]
  · intro a ha
    rcases (reachable_storeInv hre a ha).2 with hst | hst
    · by_cases hid : (a.id == i) = true
      · refine Or.inr ⟨hst, ?_⟩
        unfold cancelRow
        rw [if_pos hid]
      · refine Or.inl ?_
        unfold cancelRow
        rw [if_neg hid]
    · exact Or.inl (cancelRow_canceled hst)
  · intro h
    simp [handle_existing_cancel, h]
  · intro h
    simp [handle_existing_edit, h]

/-- C7 witness: on a concrete reachable store, cancelling an absent id is an
exact no-op, and the missing-scratch-id handler path replies with the error
text and changes nothing. -/
theorem claim_C7_witness :
    cancelAppointment exDouble 99 = exDouble ∧
    handle_existing_cancel exDouble Scratch.empty =
      { state := FlowState.MAIN_MENU, store := exDouble,
        scratch := Scratch.empty, sends := [],
        messages := [Reply.errorTryAgain] } := by
  have h := claim_C7 exDouble
    (Reachable.step evBook2 (Reachable.step evBook1 Reachable.init)) 99
    Scratch.empty
  exact ⟨h.1 (by decide), h.2.2.2.2.1 rfl⟩

/-- C8: registration on the entry command is idempotent: an unknown identity
gets exactly one new user row carrying its display fields and now as the
registration date, and any later entry command from the same identity
changes nothing at all, in particular neither the identity nor the
registration date. -/
theorem claim_C8 (s : Store) (uid : Nat) (username : Option String)
    (first : String) (last : Option String) (now : String)
    (h : findUser s uid = none) :
    (start s uid username first last now).users =
      s.users ++
        [{ user_id := uid, username := username, first_name := first,
           last_name := last, phone_number := none,
           registration_date := now }] ∧
    findUser (start s uid username first last now) uid =
      some { user_id := uid, username := username, first_name := first,
             last_name := last, phone_number := none,
             registration_date := now } ∧
    ∀ username2 first2 last2 now2,
      start (start s uid username first last now) uid username2 first2 last2
          now2 = start s uid username first last now := by
  have husers : (start s uid username first last now).users =
      s.users ++
        [{ user_id := uid, username := username, first_name := first,
           last_name := last, phone_number := none,
           registration_date := now }] := by
    rw [start_of_absent h]
  have hfind : findUser (start s uid username first last now) uid =
      some { user_id := uid, username := username, first_name := first,
             last_name := last, phone_number := none,
             registration_date := now } := by
    rw [findUser, husers, find?_append_of_none h]
    simp [List.find?_cons]
  refine ⟨husers, hfind, ?_⟩
  intro username2 first2 last2 now2
  exact start_of_found hfind username2 first2 last2 now2

/-- C8 witness: concrete registration on a fresh store followed by a second
entry command with different display data. -/
theorem claim_C8_witness :
    (start emptyStore 1 (some "abdul") "Abdul" none
        "2025-06-01 09:00:00").users = [exUser1] ∧
    start (start emptyStore 1 (some "abdul") "Abdul" none
        "2025-06-01 09:00:00") 1 (some "other") "Other" none
        "2026-01-01 00:00:00" =
      start emptyStore 1 (some "abdul") "Abdul" none
        "2025-06-01 09:00:00" := by
  have h := claim_C8 emptyStore 1 (some "abdul") "Abdul" none
    "2025-06-01 09:00:00" rfl
  exact ⟨h.1, h.2.2 (some "other") "Other" none "2026-01-01 00:00:00"⟩

/-- C9: the time-selection render is a pure function of the booked list: it
lists exactly the twelve catalog slots in catalog order, marks a slot
blocked exactly when its time occurs in the booked list (no further cutoff),
and for a date with no scheduled appointments renders all twelve slots
available, 09:00 first and 20:00 last. -/
theorem claim_C9 (s : Store) (date : String) (booked : List String) :
    ((renderTimeButtons booked).map TimeButton.time = WORKING_HOURS) ∧
    (∀ b ∈ renderTimeButtons booked, (b.available = false ↔ b.time ∈ booked)) ∧
    (listBookedTimes s date = [] →
      renderTimeButtons (listBookedTimes s date) =
        WORKING_HOURS.map (fun t => { time := t, available := true })) ∧
    ((renderTimeButtons (listBookedTimes s date)).length = 12) ∧
    (listBookedTimes s date = [] →
      (renderTimeButtons (listBookedTimes s date)).head? =
          some { time := "09:00", available := true } ∧
        (renderTimeButtons (listBookedTimes s date)).getLast? =
          some { time := "20:00", available := true }) := by
  refine ⟨?_, ?_, ?_, rfl, ?_⟩
  · simp only [renderTimeButtons, List.map_map]
    exact List.map_id WORKING_HOURS
  · intro b hb
    simp only [renderTimeButtons, List.mem_map] at hb
    obtain ⟨t, ht, rfl⟩ := hb
    simp
  · intro h
    rw [h]
    rfl
  · intro h
    rw [h]
    exact ⟨rfl, rfl⟩

/-- C9 witness: on the empty store every slot of the catalog is rendered
available, 09:00 first. -/
theorem claim_C9_witness :
    renderTimeButtons (listBookedTimes emptyStore "15.06.2025") =
      WORKING_HOURS.map (fun t => { time := t, available := true }) ∧
    (renderTimeButtons (listBookedTimes emptyStore "15.06.2025")).head? =
      some { time := "09:00", available := true } := by
  have h := claim_C9 emptyStore "15.06.2025" []
  exact ⟨h.2.2.1 rfl, (h.2.2.2.2 rfl).1⟩

/-- C10: a shared contact is accepted unconditionally: whatever phone string
the contact carries is stored on the user row with no format validation, and
the appointment row is written; so a stored phone_number need not satisfy
the typed-input format rule. -/
theorem claim_C10 (env : Env) (s : Store) (uid : Nat) (sc : Scratch)
    (now phone service date time : String) (price : Nat) (u : UserRow)
    (h1 : sc.selected_service = some service)
    (h2 : sc.selected_date = some date)
    (h3 : sc.selected_time = some time)
    (h4 : sc.service_price = some price)
    (hu : findUser s uid = some u) :
    findUser (contact_info env s uid (ContactInput.contact phone) sc
        now).store uid = some { u with phone_number := some phone } ∧
    (contact_info env s uid (ContactInput.contact phone) sc
        now).store.appointments =
      s.appointments ++
        [{ id := s.nextId, user_id := uid, service := service, price := price,
           date := date, time := time, status := "scheduled",
           created_at := now }] ∧
    (contact_info env s uid (ContactInput.contact phone) sc now).state =
      FlowState.END := by
  have hs : contact_info env s uid (ContactInput.contact phone) sc now =
      save_appointment env (setUserPhone s uid phone) uid sc now := rfl
  rw [hs]
  refine ⟨?_, ?_, ?_⟩
  · rw [save_appointment_store_eq env _ uid sc now service date time price
      h1 h2 h3 h4]
    show ((insertAppointment (setUserPhone s uid phone) uid service price
        date time now).1).users.find? (fun v => v.user_id == uid) = _
    have hus : ((insertAppointment (setUserPhone s uid phone) uid service
        price date time now).1).users = (setUserPhone s uid phone).users := rfl
    rw [hus]
    have h5 := findUser_setPhone s uid phone
    rw [findUser] at h5
    rw [h5, hu]
    rfl
  · rw [save_appointment_store_eq env _ uid sc now service date time price
      h1 h2 h3 h4]
    show (setUserPhone s uid phone).appointments ++ _ = _
    rfl
  · exact save_appointment_state_eq env _ uid sc now service date time price
      h1 h2 h3 h4

/-- C10 witness: a contact-shared phone that fails the typed-input format
rule is stored as-is and the appointment is written. -/
theorem claim_C10_witness :
    (startsWithPlus "123" && decide (12 ≤ ("123" : String).length)) = false ∧
    findUser (contact_info env0 exStoreC6 1 (ContactInput.contact "123")
        scFull "t").store 1 =
      some { exUser1 with phone_number := some "123" } ∧
    (contact_info env0 exStoreC6 1 (ContactInput.contact "123") scFull
        "t").store.appointments =
      [{ id := 1, user_id := 1, service := "Soqol olish", price := 25000,
         date := "15.06.2025", time := "11:00", status := "scheduled",
         created_at := "t" }] := by
  have h := claim_C10 env0 exStoreC6 1 scFull "t" "123" "Soqol olish"
    "15.06.2025" "11:00" 25000 exUser1 rfl rfl rfl rfl rfl
  exact ⟨by decide, h.1, h.2.1⟩

end BarberBot
